import Mathlib

/-!
Verification development for the femto repository.

The development shallowly embeds the two source files:
* `src/funcs/gpu/dropout.rs` — the dropout operator's GPU codegen (`gpu_impl`),
  together with an exact denotational semantics of the two OpenCL kernels it
  emits (each kernel body is a guarded single-index update, modelled one
  device thread at a time and run over all global ids);
* `src/main.rs` — the CLI driver, which fixes the hyperparameters and calls
  into the GPT/graph library.

Buffer elements are modelled as rationals: the emitted kernels only copy
elements and add two elements, and both operations are exact, so the model
is faithful for every claim considered here.

Parts of the repository that `src/main.rs` calls but whose code is not in
`src/` (the graph's `backward`, the GPT checkpoint `get_training_state` /
`set_training_state`, and `infer`) are modelled from the spec; each such
definition's doc comment starts with `Modelled from the spec:`.
-/

namespace Femto

/-- TensorId: opaque handle identifying a node in the graph (a `usize` in the
source). -/
abbrev TensorId := Nat

/-- One emitted device kernel, as in the Rust `GpuFunction` record built by
`gpu_impl` in `src/funcs/gpu/dropout.rs`. -/
structure GpuFunction where
  source_code : String
  kernel_name : String
  local_work_size : Nat
  global_work_size : Nat
deriving DecidableEq

/-- One operator's compiled representation, as in the Rust `GpuFunctionGroup`
record: ordered forward kernels, ordered backward kernels, shared buffers.
The dropout codegen always produces an empty shared-buffer list, so the
element type of that list is irrelevant to every claim; it is modelled as
`Unit`. -/
structure GpuFunctionGroup where
  forward_funcs : List GpuFunction
  backward_funcs : List GpuFunction
  shared_buffers : List Unit
deriving DecidableEq

/-- The source text of the forward kernel emitted by `gpu_impl`
(`format!` at lines 6–15 of `src/funcs/gpu/dropout.rs`). -/
def forward_source_code (out_id works : Nat) : String :=
  "__kernel void calc_" ++ Nat.repr out_id ++ "(
                        __global float* out,
                        __global float* a) \x7b
        uint id = get_global_id(0);
        if(id < " ++ Nat.repr works ++ ") \x7b
            out[id] = a[id];
        \x7d
    \x7d"

/-- The source text of the backward kernel emitted by `gpu_impl`
(`format!` at lines 17–28 of `src/funcs/gpu/dropout.rs`). -/
def grad_source_code (out_id works : Nat) : String :=
  "__kernel void grad_" ++ Nat.repr out_id ++ "(
                        __global float* out,
                        __global float* out_grad,
                        __global float* a,
                        __global float* a_grad) \x7b
        uint id = get_global_id(0);
        if(id < " ++ Nat.repr works ++ ") \x7b
            a_grad[id] += out_grad[id];
        \x7d
    \x7d"

/-- `gpu_impl` from `src/funcs/gpu/dropout.rs`.  The Rust function starts with
`let works = inps[0].iter().fold(1, |a, b| a * b);`, which panics when `inps`
is empty; the panic is modelled as `none`.  Otherwise it returns the
`GpuFunctionGroup` literal of lines 30–44. -/
def gpu_impl (out_id : TensorId) (inps : List (List Nat)) : Option GpuFunctionGroup :=
  match inps with
  | [] => none
  | shape :: _ =>
    let works := shape.foldl (fun a b => a * b) 1
    some
      { forward_funcs := [
          { source_code := forward_source_code out_id works
            kernel_name := "calc_" ++ Nat.repr out_id
            local_work_size := 32
            global_work_size := works }]
        backward_funcs := [
          { source_code := grad_source_code out_id works
            kernel_name := "grad_" ++ Nat.repr out_id
            local_work_size := 32
            global_work_size := works }]
        shared_buffers := [] }

/-- The kernel names emitted by `gpu_impl` for one operator instance, in
order (forward kernels then backward kernels); empty when `gpu_impl` panics.
These are the cache keys of the device backend. -/
def kernelNames (id : TensorId) (inps : List (List Nat)) : List String :=
  ((gpu_impl id inps).map
      (fun g => (g.forward_funcs ++ g.backward_funcs).map (fun f => f.kernel_name))).getD []

/-- The buffers bound to the forward kernel: `out` and `a`, in argument
order. -/
structure ForwardBufs where
  out : List ℚ
  a : List ℚ
deriving DecidableEq

/-- The buffers bound to the backward kernel: `out`, `out_grad`, `a` and
`a_grad`, in argument order. -/
structure GradBufs where
  out : List ℚ
  out_grad : List ℚ
  a : List ℚ
  a_grad : List ℚ
deriving DecidableEq

/-- One device thread of the emitted forward kernel: with global id `id`,
the body is `if (id < works) \x7b out[id] = a[id]; \x7d`.  Reads are modelled
with `getD _ _ 0` (only in-bounds reads occur when the guard holds and the
buffers have `works` elements). -/
def calcThread (works id : Nat) (b : ForwardBufs) : ForwardBufs :=
  if id < works then { b with out := b.out.set id (b.a.getD id 0) } else b

/-- One device thread of the emitted backward kernel: with global id `id`,
the body is `if (id < works) \x7b a_grad[id] += out_grad[id]; \x7d`. -/
def gradThread (works id : Nat) (b : GradBufs) : GradBufs :=
  if id < works then
    { b with a_grad := b.a_grad.set id (b.a_grad.getD id 0 + b.out_grad.getD id 0) }
  else b

/-- Run a kernel over global ids `0, 1, …, global - 1`.  Each dropout-kernel
thread touches only the buffer cell of its own id, so the sequential fold is
an exact model of the parallel dispatch. -/
def runKernel {σ : Type} (step : Nat → σ → σ) (global : Nat) (s : σ) : σ :=
  (List.range global).foldl (fun st id => step id st) s

/-- Dispatch of the emitted forward kernel with bound `works` baked into the
source and global work size `global`. -/
def runCalc (works global : Nat) (b : ForwardBufs) : ForwardBufs :=
  runKernel (calcThread works) global b

/-- Dispatch of the emitted backward kernel with bound `works` baked into the
source and global work size `global`. -/
def runGrad (works global : Nat) (b : GradBufs) : GradBufs :=
  runKernel (gradThread works) global b

/-- A graph node as seen by the backward pass: the node's output `TensorId`
and the ordered `TensorId`s of its inputs. -/
structure BNode where
  out : TensorId
  inps : List TensorId
deriving DecidableEq

/-- Modelled from the spec: one backward-rule invocation.  The graph's
`backward` (its code is not under `src/`; `src/main.rs` only calls it through
`train_cpu`/`train`) "invok[es] each node's backward rule to accumulate (add,
never overwrite) gradient contributions into its inputs' gradient buffers".
The numeric contribution a node sends to one of its inputs is operator
specific, so it is a parameter `rule`, fed with the node's output id, the
input's id and the node's current output gradient (the chain-rule source). -/
def visitNode (rule : TensorId → TensorId → ℚ → ℚ) (g : TensorId → ℚ) (v : BNode) :
    TensorId → ℚ :=
  fun t => if t ∈ v.inps then g t + rule v.out t (g v.out) else g t

/-- Modelled from the spec: `backward(loss, limit)` — it "seeds the loss
tensor's gradient to 1, then visits nodes in reverse topological order from
the loss", and "if `limit` is set, visitation stops after `limit` nodes have
had their backward rule invoked".  `nodes` is the graph's node list in
creation (topological) order.  Returns the final gradient map together with
the list of output ids of the nodes whose backward rule was invoked, in
visitation order. -/
def backward (rule : TensorId → TensorId → ℚ → ℚ) (nodes : List BNode) (loss : TensorId)
    (limit : Option Nat) (g : TensorId → ℚ) : (TensorId → ℚ) × List TensorId :=
  let seeded : TensorId → ℚ := fun t => if t = loss then 1 else g t
  let visited := match limit with
    | none => nodes.reverse
    | some k => nodes.reverse.take k
  (visited.foldl (visitNode rule) seeded, visited.map (fun v => v.out))

/-- Modelled from the spec: `TrainingState`, "the externally persisted
snapshot — all parameter tensors' current values plus the optimizer's
auxiliary per-parameter state (e.g., first/second moment estimates) plus any
optimizer step counter".  Each parameter is a shape paired with its value
buffer; the AdamW auxiliaries are per-parameter first and second moment
buffers and the global step counter. -/
structure TrainingState where
  params : List (List Nat × List ℚ)
  moments1 : List (List ℚ)
  moments2 : List (List ℚ)
  step_count : Nat
deriving DecidableEq

/-- Modelled from the spec: the live model state that `get_training_state` /
`set_training_state` act on — its parameter tensors and optimizer
auxiliaries (the checkpointed part) plus non-parameter intermediate tensor
buffers, which are not part of any checkpoint. -/
structure Model where
  params : List (List Nat × List ℚ)
  moments1 : List (List ℚ)
  moments2 : List (List ℚ)
  step_count : Nat
  intermediates : List (List ℚ)
deriving DecidableEq

/-- The checkpoint error taxonomy entry relevant here (spec §7). -/
inductive CkptError where
  | CheckpointMismatch
deriving DecidableEq

/-- Modelled from the spec: `get_training_state() -> TrainingState`
materialises the parameters and optimizer auxiliary state (GPT code is not
under `src/`; `src/main.rs` calls it at line 206). -/
def get_training_state (m : Model) : TrainingState :=
  { params := m.params
    moments1 := m.moments1
    moments2 := m.moments2
    step_count := m.step_count }

/-- Modelled from the spec: `set_training_state(state, strict)` — with
`strict = true` it "fails if shapes/ordering mismatch the live graph rather
than silently truncating/padding", with `CheckpointMismatch` "surfaced to the
caller before any parameter is overwritten, i.e., load is all-or-nothing"
(GPT code is not under `src/`; `src/main.rs` calls it at lines 100 and 158).
The error case returns no model at all, so the caller's live state is
untouched. -/
def set_training_state (m : Model) (ts : TrainingState) (strict : Bool) :
    Except CkptError Model :=
  if strict = true ∧ ts.params.map Prod.fst ≠ m.params.map Prod.fst then
    Except.error CkptError.CheckpointMismatch
  else
    Except.ok
      { m with
        params := ts.params
        moments1 := ts.moments1
        moments2 := ts.moments2
        step_count := ts.step_count }

/-- Modelled from the spec: the generation loop of
`infer(rng, prompt_ids, count, temperature, per_token_callback)` as a
small-step relation (GPT code is not under `src/`; `src/main.rs` calls it at
lines 104–110).  `next` draws from the injected seedable rng, returning the
advanced rng state and the drawn random value; `pick` samples a token from
the model's output distribution over the ids so far, scaled by the
temperature, using that draw.  `InferRel next pick logits temp s ids c out`
holds when one run starting from rng state `s` and token prefix `ids`, asked
for `c` more tokens, ends with token sequence `out`. -/
inductive InferRel {σ : Type} (next : σ → σ × ℚ) (pick : List ℚ → ℚ → ℚ → Nat)
    (logits : List Nat → List ℚ) (temp : ℚ) : σ → List Nat → Nat → List Nat → Prop
  | done (s : σ) (ids : List Nat) : InferRel next pick logits temp s ids 0 ids
  | step (s : σ) (ids : List Nat) (c : Nat) (s' : σ) (r : ℚ) (out : List Nat) :
      next s = (s', r) →
      InferRel next pick logits temp s' (ids ++ [pick (logits ids) temp r]) c out →
      InferRel next pick logits temp s ids (c + 1) out

/-- Modelled from the spec: the executable form of the same generation loop;
it autoregressively extends the prompt by `count` tokens. -/
def infer {σ : Type} (next : σ → σ × ℚ) (pick : List ℚ → ℚ → ℚ → Nat)
    (logits : List Nat → List ℚ) (temp : ℚ) (s : σ) (ids : List Nat) :
    Nat → List Nat
  | 0 => ids
  | c + 1 =>
    let p := next s
    infer next pick logits temp p.1 (ids ++ [pick (logits ids) temp p.2]) c

/-! ### Helper lemmas about the kernel semantics -/

lemma runKernel_succ {σ : Type} (step : Nat → σ → σ) (n : Nat) (s : σ) :
    runKernel step (n + 1) s = step n (runKernel step n s) := by
  simp [runKernel, List.range_succ]

lemma runGrad_succ (works n : Nat) (b : GradBufs) :
    runGrad works (n + 1) b = gradThread works n (runGrad works n b) := by
  simp [runGrad, runKernel, List.range_succ]

lemma runCalc_succ (works n : Nat) (b : ForwardBufs) :
    runCalc works (n + 1) b = calcThread works n (runCalc works n b) := by
  simp [runCalc, runKernel, List.range_succ]

lemma gradThread_out (works id : Nat) (b : GradBufs) :
    (gradThread works id b).out = b.out := by
  unfold gradThread; split <;> rfl

lemma gradThread_out_grad (works id : Nat) (b : GradBufs) :
    (gradThread works id b).out_grad = b.out_grad := by
  unfold gradThread; split <;> rfl

lemma gradThread_a (works id : Nat) (b : GradBufs) :
    (gradThread works id b).a = b.a := by
  unfold gradThread; split <;> rfl

lemma gradThread_a_grad_length (works id : Nat) (b : GradBufs) :
    (gradThread works id b).a_grad.length = b.a_grad.length := by
  unfold gradThread; split <;> simp

lemma runGrad_out (works n : Nat) (b : GradBufs) :
    (runGrad works n b).out = b.out := by
  induction n with
  | zero => rfl
  | succ n ih => rw [runGrad_succ, gradThread_out, ih]

lemma runGrad_out_grad (works n : Nat) (b : GradBufs) :
    (runGrad works n b).out_grad = b.out_grad := by
  induction n with
  | zero => rfl
  | succ n ih => rw [runGrad_succ, gradThread_out_grad, ih]

lemma runGrad_a (works n : Nat) (b : GradBufs) :
    (runGrad works n b).a = b.a := by
  induction n with
  | zero => rfl
  | succ n ih => rw [runGrad_succ, gradThread_a, ih]

lemma runGrad_a_grad_length (works n : Nat) (b : GradBufs) :
    (runGrad works n b).a_grad.length = b.a_grad.length := by
  induction n with
  | zero => rfl
  | succ n ih => rw [runGrad_succ, gradThread_a_grad_length, ih]

lemma runGrad_a_grad_hi (works n : Nat) (b : GradBufs) :
    ∀ i, n ≤ i → (runGrad works n b).a_grad[i]? = b.a_grad[i]? := by
  induction n with
  | zero => intro i _; rfl
  | succ n ih =>
    intro i hi
    rw [runGrad_succ]
    unfold gradThread
    split
    · show ((runGrad works n b).a_grad.set n _)[i]? = _
      rw [List.getElem?_set_ne (by omega)]
      exact ih i (by omega)
    · exact ih i (by omega)

lemma runGrad_a_grad_lo (works n : Nat) (b : GradBufs) :
    ∀ i, i < n → i < works → i < b.a_grad.length →
      (runGrad works n b).a_grad[i]? = some (b.a_grad.getD i 0 + b.out_grad.getD i 0) := by
  induction n with
  | zero => intro i hi _ _; omega
  | succ n ih =>
    intro i hi hw hl
    rw [runGrad_succ]
    by_cases hin : i = n
    · subst hin
      have hhi := runGrad_a_grad_hi works i b i (Nat.le_refl i)
      have hog := runGrad_out_grad works i b
      have hlen := runGrad_a_grad_length works i b
      unfold gradThread
      rw [if_pos hw]
      show ((runGrad works i b).a_grad.set i _)[i]? = _
      rw [List.getElem?_set_self (by rw [hlen]; exact hl)]
      rw [List.getD_eq_getElem?_getD, List.getD_eq_getElem?_getD, hhi, hog]
      rw [← List.getD_eq_getElem?_getD, ← List.getD_eq_getElem?_getD]
    · unfold gradThread
      split
      · show ((runGrad works n b).a_grad.set n _)[i]? = _
        rw [List.getElem?_set_ne (by omega)]
        exact ih i (by omega) hw hl
      · exact ih i (by omega) hw hl

lemma calcThread_a (works id : Nat) (b : ForwardBufs) :
    (calcThread works id b).a = b.a := by
  unfold calcThread; split <;> rfl

lemma calcThread_out_length (works id : Nat) (b : ForwardBufs) :
    (calcThread works id b).out.length = b.out.length := by
  unfold calcThread; split <;> simp

lemma runCalc_a (works n : Nat) (b : ForwardBufs) :
    (runCalc works n b).a = b.a := by
  induction n with
  | zero => rfl
  | succ n ih => rw [runCalc_succ, calcThread_a, ih]

lemma runCalc_out_length (works n : Nat) (b : ForwardBufs) :
    (runCalc works n b).out.length = b.out.length := by
  induction n with
  | zero => rfl
  | succ n ih => rw [runCalc_succ, calcThread_out_length, ih]

lemma runCalc_out_hi (works n : Nat) (b : ForwardBufs) :
    ∀ i, n ≤ i → (runCalc works n b).out[i]? = b.out[i]? := by
  induction n with
  | zero => intro i _; rfl
  | succ n ih =>
    intro i hi
    rw [runCalc_succ]
    unfold calcThread
    split
    · show ((runCalc works n b).out.set n _)[i]? = _
      rw [List.getElem?_set_ne (by omega)]
      exact ih i (by omega)
    · exact ih i (by omega)

lemma runCalc_out_lo (works n : Nat) (b : ForwardBufs) :
    ∀ i, i < n → i < works → i < b.out.length →
      (runCalc works n b).out[i]? = some (b.a.getD i 0) := by
  induction n with
  | zero => intro i hi _ _; omega
  | succ n ih =>
    intro i hi hw hl
    rw [runCalc_succ]
    by_cases hin : i = n
    · subst hin
      have hlen := runCalc_out_length works i b
      have ha := runCalc_a works i b
      unfold calcThread
      rw [if_pos hw]
      show ((runCalc works i b).out.set i _)[i]? = _
      rw [List.getElem?_set_self (by rw [hlen]; exact hl)]
      rw [ha]
    · unfold calcThread
      split
      · show ((runCalc works n b).out.set n _)[i]? = _
        rw [List.getElem?_set_ne (by omega)]
        exact ih i (by omega) hw hl
      · exact ih i (by omega) hw hl

/-! ### Claims about the dropout GPU codegen -/

section ConcreteEvaluation

attribute [local semireducible] Rat.add

/-- C1: For the dropout operator with dropout probability 0 (the probability
`src/main.rs` fixes at line 54; the codegen emits the same kernels for every
probability), the forward kernel emitted by `gpu_impl` is the identity on the
4-element input `[1,2,3,4]`, and the emitted backward kernel applied with
output gradient `[1,1,1,1]` and zero-initialised input gradient yields input
gradient `[1,1,1,1]`. -/
theorem dropout_scenario_p0 :
    (gpu_impl 0 [[4]]).map
        (fun g => g.forward_funcs.map (fun f =>
          runCalc f.global_work_size f.global_work_size ⟨[0, 0, 0, 0], [1, 2, 3, 4]⟩)) =
      some [⟨[1, 2, 3, 4], [1, 2, 3, 4]⟩] ∧
    (gpu_impl 0 [[4]]).map
        (fun g => g.backward_funcs.map (fun f =>
          (runGrad f.global_work_size f.global_work_size
            ⟨[1, 2, 3, 4], [1, 1, 1, 1], [1, 2, 3, 4], [0, 0, 0, 0]⟩).a_grad)) =
      some [[1, 1, 1, 1]] :=
  ⟨by decide, by decide⟩

end ConcreteEvaluation

/-- C2: The backward kernel accumulates rather than overwrites: for every
prior content of the input-gradient buffer `a_grad` (of length equal to the
element count `works`) and every output gradient, running the emitted backward
kernel over all `works` global ids leaves `a_grad[i] = old a_grad[i] +
out_grad[i]` for every `i < works`, and the `out`, `out_grad` and `a` buffers
unchanged. -/
theorem dropout_backward_accumulates (works : Nat) (b : GradBufs)
    (hlen : b.a_grad.length = works) :
    (runGrad works works b).out = b.out ∧
    (runGrad works works b).out_grad = b.out_grad ∧
    (runGrad works works b).a = b.a ∧
    ∀ i, i < works →
      (runGrad works works b).a_grad.getD i 0 = b.a_grad.getD i 0 + b.out_grad.getD i 0 := by
  refine ⟨runGrad_out _ _ _, runGrad_out_grad _ _ _, runGrad_a _ _ _, ?_⟩
  intro i hi
  rw [List.getD_eq_getElem?_getD,
      runGrad_a_grad_lo works works b i hi hi (by omega)]
  rfl

/-- Witness for C2 at `works = 2`, `a_grad = [3, 4]`, `out_grad = [7, 8]`. -/
theorem dropout_backward_accumulates_witness :
    (GradBufs.mk [5, 6] [7, 8] [9, 10] [3, 4]).a_grad.length = 2 ∧
    ((runGrad 2 2 ⟨[5, 6], [7, 8], [9, 10], [3, 4]⟩).out = [5, 6] ∧
     (runGrad 2 2 ⟨[5, 6], [7, 8], [9, 10], [3, 4]⟩).out_grad = [7, 8] ∧
     (runGrad 2 2 ⟨[5, 6], [7, 8], [9, 10], [3, 4]⟩).a = [9, 10] ∧
     ∀ i, i < 2 →
       (runGrad 2 2 ⟨[5, 6], [7, 8], [9, 10], [3, 4]⟩).a_grad.getD i 0 =
         (GradBufs.mk [5, 6] [7, 8] [9, 10] [3, 4]).a_grad.getD i 0 +
           (GradBufs.mk [5, 6] [7, 8] [9, 10] [3, 4]).out_grad.getD i 0) :=
  ⟨rfl, dropout_backward_accumulates 2 ⟨[5, 6], [7, 8], [9, 10], [3, 4]⟩ rfl⟩

/-- C6: for every non-empty input-shape list, the group emitted by `gpu_impl`
gives both the forward and the backward kernel a global work size equal to the
product of the first shape's dimensions, and each kernel body's bounds guard
makes a device thread whose global id is at or beyond that element count leave
every buffer unchanged. -/
theorem dropout_work_size_and_guard (id : TensorId) (s : List Nat)
    (rest : List (List Nat)) :
    (gpu_impl id (s :: rest)).map
        (fun g => (g.forward_funcs.map (fun f => f.global_work_size),
                   g.backward_funcs.map (fun f => f.global_work_size))) =
      some ([s.foldl (fun a b => a * b) 1], [s.foldl (fun a b => a * b) 1]) ∧
    (∀ works tid b, works ≤ tid → calcThread works tid b = b) ∧
    (∀ works tid b, works ≤ tid → gradThread works tid b = b) := by
  refine ⟨rfl, ?_, ?_⟩
  · intro works tid b h
    unfold calcThread
    rw [if_neg (by omega)]
  · intro works tid b h
    unfold gradThread
    rw [if_neg (by omega)]

/-- Witness for C6: an out-of-range thread id (4 ≤ 5) is inert for both
kernel bodies. -/
theorem dropout_work_size_and_guard_witness :
    4 ≤ 5 ∧ calcThread 4 5 ⟨[1], [2]⟩ = ⟨[1], [2]⟩ ∧
      gradThread 4 5 ⟨[1], [2], [3], [4]⟩ = ⟨[1], [2], [3], [4]⟩ :=
  ⟨by decide,
   (dropout_work_size_and_guard 0 [4] []).2.1 4 5 ⟨[1], [2]⟩ (by decide),
   (dropout_work_size_and_guard 0 [4] []).2.2 4 5 ⟨[1], [2], [3], [4]⟩ (by decide)⟩

/-- C9: `gpu_impl` is partial in `inps` — it indexes `inps[0]`, so the empty
shape list is a panic (modelled `none`); with at least one shape it always
returns a group, and an empty first shape yields element count 1 because the
fold starts from 1. -/
theorem gpu_impl_partiality :
    (∀ id : TensorId, gpu_impl id [] = none) ∧
    (∀ (id : TensorId) (s : List Nat) (rest : List (List Nat)),
        (gpu_impl id (s :: rest)).isSome = true) ∧
    (∀ (id : TensorId) (rest : List (List Nat)),
        (gpu_impl id ([] :: rest)).map
            (fun g => g.forward_funcs.map (fun f => f.global_work_size)) =
          some [1]) :=
  ⟨fun _ => rfl, fun _ _ _ => rfl, fun _ _ => rfl⟩

/-- C10: the dropout codegen takes no dropout-probability parameter; it emits
exactly one forward kernel, exactly one backward kernel and no shared
buffers, the forward kernel unconditionally copies the input to the output,
and the backward kernel unconditionally adds the output gradient to the input
gradient — for every element count and buffer contents. -/
theorem dropout_codegen_unconditional (id : TensorId) (s : List Nat)
    (rest : List (List Nat)) :
    (gpu_impl id (s :: rest)).map
        (fun g => (g.forward_funcs.length, g.backward_funcs.length, g.shared_buffers)) =
      some (1, 1, []) ∧
    (∀ works b, b.out.length = works → b.a.length = works →
        (runCalc works works b).out = b.a ∧ (runCalc works works b).a = b.a) ∧
    (∀ works b, b.a_grad.length = works → b.out_grad.length = works →
        (runGrad works works b).a_grad =
          List.zipWith (fun x y => x + y) b.a_grad b.out_grad) := by
  refine ⟨rfl, ?_, ?_⟩
  · intro works b hout ha
    refine ⟨?_, runCalc_a _ _ _⟩
    apply List.ext_getElem?
    intro i
    by_cases hi : i < works
    · rw [runCalc_out_lo works works b i hi hi (by omega)]
      rw [List.getD_eq_getElem?_getD, List.getElem?_eq_getElem (by omega)]
      rfl
    · rw [runCalc_out_hi works works b i (by omega)]
      rw [List.getElem?_eq_none (by omega), List.getElem?_eq_none (by omega)]
  · intro works b hag hog
    apply List.ext_getElem?
    intro i
    rw [List.getElem?_zipWith']
    by_cases hi : i < works
    · rw [runGrad_a_grad_lo works works b i hi hi (by omega)]
      rw [List.getElem?_eq_getElem (l := b.a_grad) (by omega),
          List.getElem?_eq_getElem (l := b.out_grad) (by omega)]
      rw [List.getD_eq_getElem?_getD, List.getD_eq_getElem?_getD,
          List.getElem?_eq_getElem (by omega), List.getElem?_eq_getElem (by omega)]
      rfl
    · rw [runGrad_a_grad_hi works works b i (by omega)]
      rw [List.getElem?_eq_none (l := b.a_grad) (by omega),
          List.getElem?_eq_none (l := b.out_grad) (by omega)]
      rfl

/-- Witness for C10 at `works = 2` and concrete buffers. -/
theorem dropout_codegen_unconditional_witness :
    ([(1 : ℚ), 2] : List ℚ).length = 2 ∧
    ((runCalc 2 2 ⟨[0, 0], [1, 2]⟩).out = [1, 2] ∧ (runCalc 2 2 ⟨[0, 0], [1, 2]⟩).a = [1, 2]) ∧
    (runGrad 2 2 ⟨[1, 2], [3, 4], [5, 6], [7, 8]⟩).a_grad =
      List.zipWith (fun x y => x + y)
        (GradBufs.mk [1, 2] [3, 4] [5, 6] [7, 8]).a_grad
        (GradBufs.mk [1, 2] [3, 4] [5, 6] [7, 8]).out_grad :=
  ⟨rfl,
   (dropout_codegen_unconditional 0 [2] []).2.1 2 ⟨[0, 0], [1, 2]⟩ rfl rfl,
   (dropout_codegen_unconditional 0 [2] []).2.2 2 ⟨[1, 2], [3, 4], [5, 6], [7, 8]⟩ rfl rfl⟩

/-! ### Injectivity of the decimal kernel-name derivation (for C7)

The kernel names are `"calc_" ++ Nat.repr id` and `"grad_" ++ Nat.repr id`,
matching Rust's `format!("calc_{}", out_id)` on a `usize`.  We prove that
`Nat.repr` is injective by establishing the structural recurrence of the
fuelled digit printer `Nat.toDigitsCore`. -/

lemma digitChar_injOn :
    ∀ m, m < 10 → ∀ n, n < 10 → Nat.digitChar m = Nat.digitChar n → m = n := by
  decide

lemma toDigitsCore_shift (fuel : Nat) :
    ∀ n, n < fuel → ∀ acc : List Char,
      Nat.toDigitsCore 10 fuel n acc = Nat.toDigitsCore 10 fuel n [] ++ acc := by
  induction fuel with
  | zero => intro n h; omega
  | succ fuel ih =>
    intro n h acc
    unfold Nat.toDigitsCore
    dsimp only
    by_cases h0 : n / 10 = 0
    · rw [if_pos h0, if_pos h0]
      rfl
    · rw [if_neg h0, if_neg h0]
      have hdiv : n / 10 < n := Nat.div_lt_self (by omega) (by omega)
      have hlt : n / 10 < fuel := by omega
      rw [ih (n / 10) hlt (Nat.digitChar (n % 10) :: acc),
          ih (n / 10) hlt [Nat.digitChar (n % 10)], List.append_assoc]
      rfl

lemma toDigitsCore_fuel :
    ∀ f₁ f₂ n, n < f₁ → n < f₂ →
      Nat.toDigitsCore 10 f₁ n [] = Nat.toDigitsCore 10 f₂ n [] := by
  intro f₁
  induction f₁ with
  | zero => intro f₂ n h₁ _; omega
  | succ f ih =>
    intro f₂ n h₁ h₂
    cases f₂ with
    | zero => omega
    | succ f' =>
      unfold Nat.toDigitsCore
      dsimp only
      by_cases h0 : n / 10 = 0
      · rw [if_pos h0, if_pos h0]
      · rw [if_neg h0, if_neg h0]
        have hdiv : n / 10 < n := Nat.div_lt_self (by omega) (by omega)
        rw [toDigitsCore_shift f (n / 10) (by omega) [Nat.digitChar (n % 10)],
            toDigitsCore_shift f' (n / 10) (by omega) [Nat.digitChar (n % 10)]]
        rw [ih f' (n / 10) (by omega) (by omega)]

lemma toDigits_small (n : Nat) (h : n < 10) :
    Nat.toDigits 10 n = [Nat.digitChar n] := by
  unfold Nat.toDigits Nat.toDigitsCore
  dsimp only
  rw [if_pos (by omega), Nat.mod_eq_of_lt h]

lemma toDigits_big (n : Nat) (h : 10 ≤ n) :
    Nat.toDigits 10 n = Nat.toDigits 10 (n / 10) ++ [Nat.digitChar (n % 10)] := by
  have hdiv : n / 10 < n := Nat.div_lt_self (by omega) (by omega)
  have h0 : ¬ n / 10 = 0 := by
    have : 1 ≤ n / 10 := (Nat.one_le_div_iff (by omega)).mpr h
    omega
  show Nat.toDigitsCore 10 (n + 1) n [] = _
  unfold Nat.toDigitsCore
  dsimp only
  rw [if_neg h0]
  rw [toDigitsCore_shift n (n / 10) (by omega) [Nat.digitChar (n % 10)]]
  rw [toDigitsCore_fuel n (n / 10 + 1) (n / 10) (by omega) (by omega)]
  rfl

lemma toDigits_ne_nil (n : Nat) : Nat.toDigits 10 n ≠ [] := by
  by_cases h : n < 10
  · rw [toDigits_small n h]
    exact List.cons_ne_nil _ _
  · rw [toDigits_big n (by omega)]
    simp

lemma toDigits10_injective : ∀ m n : Nat, Nat.toDigits 10 m = Nat.toDigits 10 n → m = n := by
  intro m
  induction m using Nat.strong_induction_on with
  | _ m ih =>
    intro n h
    by_cases hm : m < 10 <;> by_cases hn : n < 10
    · rw [toDigits_small m hm, toDigits_small n hn] at h
      injection h with h' _
      exact digitChar_injOn m hm n hn h'
    · exfalso
      rw [toDigits_small m hm, toDigits_big n (by omega)] at h
      have hl := congrArg List.length h
      simp only [List.length_append, List.length_cons, List.length_nil] at hl
      exact toDigits_ne_nil (n / 10) (List.eq_nil_of_length_eq_zero (by omega))
    · exfalso
      rw [toDigits_big m (by omega), toDigits_small n hn] at h
      have hl := congrArg List.length h
      simp only [List.length_append, List.length_cons, List.length_nil] at hl
      exact toDigits_ne_nil (m / 10) (List.eq_nil_of_length_eq_zero (by omega))
    · rw [toDigits_big m (by omega), toDigits_big n (by omega)] at h
      obtain ⟨h₁, h₂⟩ := List.append_inj' h (by simp)
      have hdivm : m / 10 < m := Nat.div_lt_self (by omega) (by omega)
      have hdiv : m / 10 = n / 10 := ih (m / 10) hdivm (n / 10) h₁
      injection h₂ with h₂' _
      have hmod : m % 10 = n % 10 :=
        digitChar_injOn (m % 10) (Nat.mod_lt m (by omega)) (n % 10) (Nat.mod_lt n (by omega)) h₂'
      omega

lemma repr_injective (m n : Nat) (h : Nat.repr m = Nat.repr n) : m = n :=
  toDigits10_injective m n (congrArg String.data h)

lemma string_append_left_cancel {s t₁ t₂ : String} (h : s ++ t₁ = s ++ t₂) : t₁ = t₂ := by
  apply String.ext
  have hd := congrArg String.data h
  rw [String.data_append, String.data_append] at hd
  exact List.append_cancel_left hd

lemma calc_ne_grad (m n : Nat) : ("calc_" ++ Nat.repr m : String) ≠ "grad_" ++ Nat.repr n := by
  intro h
  have hd := congrArg String.data h
  rw [String.data_append, String.data_append] at hd
  have hc : ("calc_" : String).data = ['c', 'a', 'l', 'c', '_'] := rfl
  have hg : ("grad_" : String).data = ['g', 'r', 'a', 'd', '_'] := rfl
  rw [hc, hg] at hd
  injection hd with hd' _
  exact absurd hd' (by decide)

/-- C7: Kernel names are derived injectively from the owning node's
`TensorId`: kernel names emitted for two distinct output ids never collide,
and within a single operator instance the forward name `calc_{id}` and the
backward name `grad_{id}` are pairwise distinct — so caching compiled kernels
keyed by kernel name has no collisions. -/
theorem kernel_names_no_collisions :
    (∀ (id₁ id₂ : TensorId) (inps₁ inps₂ : List (List Nat)), id₁ ≠ id₂ →
        ∀ n₁ ∈ kernelNames id₁ inps₁, ∀ n₂ ∈ kernelNames id₂ inps₂, n₁ ≠ n₂) ∧
    (∀ (id : TensorId) (inps : List (List Nat)),
        (kernelNames id inps).Pairwise (fun a b => a ≠ b)) := by
  constructor
  · intro id₁ id₂ inps₁ inps₂ hne n₁ h₁ n₂ h₂
    cases inps₁ with
    | nil => cases h₁
    | cons s₁ r₁ =>
      cases inps₂ with
      | nil => cases h₂
      | cons s₂ r₂ =>
        have e₁ : kernelNames id₁ (s₁ :: r₁) =
            ["calc_" ++ Nat.repr id₁, "grad_" ++ Nat.repr id₁] := rfl
        have e₂ : kernelNames id₂ (s₂ :: r₂) =
            ["calc_" ++ Nat.repr id₂, "grad_" ++ Nat.repr id₂] := rfl
        rw [e₁] at h₁
        rw [e₂] at h₂
        rcases List.mem_pair.mp h₁ with rfl | rfl <;>
          rcases List.mem_pair.mp h₂ with rfl | rfl
        · exact fun hc =>
            hne (repr_injective id₁ id₂ (string_append_left_cancel hc))
        · exact calc_ne_grad id₁ id₂
        · exact fun hc => calc_ne_grad id₂ id₁ hc.symm
        · intro hc
          apply hne
          apply repr_injective id₁ id₂
          apply String.ext
          have hd := congrArg String.data hc
          rw [String.data_append, String.data_append] at hd
          exact List.append_cancel_left hd
  · intro id inps
    cases inps with
    | nil => exact List.Pairwise.nil
    | cons s r =>
      have e : kernelNames id (s :: r) =
          ["calc_" ++ Nat.repr id, "grad_" ++ Nat.repr id] := rfl
      rw [e]
      refine List.pairwise_cons.mpr ⟨?_, ?_⟩
      · intro n hn
        rw [List.mem_singleton] at hn
        subst hn
        exact calc_ne_grad id id
      · exact List.pairwise_singleton _ _

/-- Witness for C7: concrete distinct ids 0 and 1, with the emitted names
evaluated. -/
theorem kernel_names_no_collisions_witness :
    (0 : TensorId) ≠ 1 ∧
    kernelNames 0 [[2]] = ["calc_0", "grad_0"] ∧
    (∀ n₁ ∈ kernelNames 0 [[2]], ∀ n₂ ∈ kernelNames 1 [[2]], n₁ ≠ n₂) ∧
    (kernelNames 1 [[2]]).Pairwise (fun a b => a ≠ b) :=
  ⟨by decide, rfl,
   kernel_names_no_collisions.1 0 1 [[2]] [[2]] (by decide),
   kernel_names_no_collisions.2 1 [[2]]⟩

/-! ### Claims about the spec-modelled graph, checkpoint and inference -/

lemma foldl_visitNode_untouched (rule : TensorId → TensorId → ℚ → ℚ) (t : TensorId) :
    ∀ (l : List BNode) (g : TensorId → ℚ),
      (∀ v ∈ l, t ∉ v.inps) → (l.foldl (visitNode rule) g) t = g t := by
  intro l
  induction l with
  | nil => intro g _; rfl
  | cons v l ih =>
    intro g hv
    rw [List.foldl_cons]
    rw [ih _ (fun w hw => hv w (List.mem_cons_of_mem _ hw))]
    show (if t ∈ v.inps then _ else g t) = g t
    rw [if_neg (hv v (List.mem_cons_self _ _))]

section ConcreteBackward

attribute [local semireducible] Rat.add

/-- Counterexample to C3 as stated: in the graph with nodes `⟨1, [0]⟩` then
`⟨2, [1]⟩` (loss = tensor 2), `backward` with `limit = 1` invokes only the
node producing tensor 2, yet the gradient of tensor 1 — a node beyond the
limit — changes from its prior value 0 to 1, because the visited node
accumulates into its input's gradient buffer.  So "every node beyond the
limit retains exactly the gradient contents it held before the call" fails. -/
theorem backward_limit_counterexample :
    (backward (fun _ _ og => og) [⟨1, [0]⟩, ⟨2, [1]⟩] 2 (some 1) (fun _ => 0)).2 = [2] ∧
    (backward (fun _ _ og => og) [⟨1, [0]⟩, ⟨2, [1]⟩] 2 (some 1) (fun _ => 0)).1 1 = 1 ∧
    ((1 : ℚ) ≠ 0) :=
  ⟨rfl, by decide, by decide⟩

end ConcreteBackward

/-- C3 (amended): with `backward(loss, limit = k)` and `k` no larger than the
node count, exactly `k` nodes — the `k` most recent in reverse topological
order — have their backward rule invoked (a count of node invocations, not
edges); and a non-loss tensor that is not an input of any visited node
retains exactly the gradient contents it held before the call.  (The
unamended claim, that *every* node beyond the limit keeps its gradient, fails
because a visited node accumulates into its inputs' gradients; see the
counterexample.) -/
theorem backward_limit_semantics (rule : TensorId → TensorId → ℚ → ℚ)
    (nodes : List BNode) (loss : TensorId) (k : Nat) (g : TensorId → ℚ)
    (hk : k ≤ nodes.length) :
    (backward rule nodes loss (some k) g).2 = (nodes.reverse.take k).map (fun v => v.out) ∧
    (backward rule nodes loss (some k) g).2.length = k ∧
    (∀ t, t ≠ loss → (∀ v ∈ nodes.reverse.take k, t ∉ v.inps) →
        (backward rule nodes loss (some k) g).1 t = g t) := by
  refine ⟨rfl, ?_, ?_⟩
  · show ((nodes.reverse.take k).map _).length = k
    rw [List.length_map, List.length_take, List.length_reverse]
    omega
  · intro t ht hv
    show (List.foldl (visitNode rule) _ (nodes.reverse.take k)) t = g t
    rw [foldl_visitNode_untouched rule t _ _ hv]
    show (if t = loss then 1 else g t) = g t
    rw [if_neg ht]

/-- Witness for C3 (amended) on the two-node chain with `k = 1`: tensor 0 is
beyond the limit and feeds no visited node, so its gradient is retained. -/
theorem backward_limit_semantics_witness :
    1 ≤ ([⟨1, [0]⟩, ⟨2, [1]⟩] : List BNode).length ∧
    ((backward (fun _ _ og => og) [⟨1, [0]⟩, ⟨2, [1]⟩] 2 (some 1) (fun _ => 0)).2 =
        (([⟨1, [0]⟩, ⟨2, [1]⟩] : List BNode).reverse.take 1).map (fun v => v.out) ∧
     (backward (fun _ _ og => og) [⟨1, [0]⟩, ⟨2, [1]⟩] 2 (some 1) (fun _ => 0)).2.length = 1 ∧
     (∀ t, t ≠ 2 →
        (∀ v ∈ ([⟨1, [0]⟩, ⟨2, [1]⟩] : List BNode).reverse.take 1, t ∉ v.inps) →
        (backward (fun _ _ og => og) [⟨1, [0]⟩, ⟨2, [1]⟩] 2 (some 1) (fun _ => 0)).1 t =
          (fun _ => (0 : ℚ)) t)) :=
  ⟨by decide,
   backward_limit_semantics (fun _ _ og => og) [⟨1, [0]⟩, ⟨2, [1]⟩] 2 1 (fun _ => 0)
     (by decide)⟩

/-- C4: `set_training_state (get_training_state m) strict` succeeds for every
live model and returns the model itself — every parameter tensor and every
optimizer auxiliary value (moment estimates, step counter) is bit-identical
to its value before the call; since the result is `m` again, the identity
holds under arbitrarily repeated round trips. -/
theorem training_state_round_trip (m : Model) (strict : Bool) :
    set_training_state m (get_training_state m) strict = Except.ok m := by
  unfold set_training_state get_training_state
  rw [if_neg (fun hc => hc.2 rfl)]

/-- C5: strict loading is all-or-nothing — whenever the loaded state's
parameter shapes or ordering disagree with the live graph, the call fails
with `CheckpointMismatch` and returns no model at all (so no parameter or
optimizer buffer of the live graph is modified); and on success the loaded
parameter list is installed verbatim with a shape list that exactly matches
the live graph's — never truncated or padded. -/
theorem strict_load_all_or_nothing (m : Model) (ts : TrainingState) :
    (ts.params.map Prod.fst ≠ m.params.map Prod.fst →
        set_training_state m ts true = Except.error CkptError.CheckpointMismatch ∧
        ∀ m', set_training_state m ts true ≠ Except.ok m') ∧
    (∀ m', set_training_state m ts true = Except.ok m' →
        m'.params = ts.params ∧ m'.params.map Prod.fst = m.params.map Prod.fst) := by
  constructor
  · intro hmm
    have h : set_training_state m ts true = Except.error CkptError.CheckpointMismatch := by
      unfold set_training_state
      rw [if_pos ⟨rfl, hmm⟩]
    refine ⟨h, fun m' hc => ?_⟩
    rw [h] at hc
    cases hc
  · intro m' hok
    unfold set_training_state at hok
    by_cases hmm : ts.params.map Prod.fst ≠ m.params.map Prod.fst
    · rw [if_pos ⟨rfl, hmm⟩] at hok
      cases hok
    · have heq : ts.params.map Prod.fst = m.params.map Prod.fst := not_not.mp hmm
      rw [if_neg (fun hc => hmm hc.2)] at hok
      injection hok with h'
      constructor
      · rw [← h']
      · rw [← h']
        exact heq

/-- Witness for C5: a shape mismatch (`[2]` vs `[3]`) is rejected, and the
matching round-trip state is installed verbatim. -/
theorem strict_load_all_or_nothing_witness :
    (TrainingState.mk [([3], [1, 2, 3])] [] [] 0).params.map Prod.fst ≠
        (Model.mk [([2], [1, 2])] [] [] 0 []).params.map Prod.fst ∧
    (set_training_state (Model.mk [([2], [1, 2])] [] [] 0 [])
        (TrainingState.mk [([3], [1, 2, 3])] [] [] 0) true =
          Except.error CkptError.CheckpointMismatch ∧
      ∀ m', set_training_state (Model.mk [([2], [1, 2])] [] [] 0 [])
          (TrainingState.mk [([3], [1, 2, 3])] [] [] 0) true ≠ Except.ok m') ∧
    ((Model.mk [([2], [1, 2])] [] [] 0 []).params =
        (TrainingState.mk [([2], [1, 2])] [] [] 0).params ∧
      (Model.mk [([2], [1, 2])] [] [] 0 []).params.map Prod.fst =
        (Model.mk [([2], [1, 2])] [] [] 0 []).params.map Prod.fst) :=
  ⟨by decide,
   (strict_load_all_or_nothing (Model.mk [([2], [1, 2])] [] [] 0 [])
       (TrainingState.mk [([3], [1, 2, 3])] [] [] 0)).1 (by decide),
   (strict_load_all_or_nothing (Model.mk [([2], [1, 2])] [] [] 0 [])
       (TrainingState.mk [([2], [1, 2])] [] [] 0)).2
     (Model.mk [([2], [1, 2])] [] [] 0 []) rfl⟩

/-- C8: `infer` is deterministic given a seeded rng: the generation relation
is functional — two runs from identically seeded rng states, the same prompt,
the same requested count and the same temperature produce the same generated
token sequence.  (This holds for every temperature, in particular as
`temperature` approaches 0.) -/
theorem infer_deterministic {σ : Type} (next : σ → σ × ℚ)
    (pick : List ℚ → ℚ → ℚ → Nat) (logits : List Nat → List ℚ) (temp : ℚ)
    (s : σ) (ids : List Nat) (c : Nat) (out₁ out₂ : List Nat)
    (h₁ : InferRel next pick logits temp s ids c out₁)
    (h₂ : InferRel next pick logits temp s ids c out₂) : out₁ = out₂ := by
  induction h₁ generalizing out₂ with
  | done s ids =>
    cases h₂
    rfl
  | step s ids c s' r out hnext _ ih =>
    cases h₂ with
    | step _ _ _ s'' r' _ hnext' hrel' =>
      rw [hnext] at hnext'
      injection hnext' with hs hr
      subst hs
      subst hr
      exact ih out₂ hrel'

/-- Witness for C8: a concrete one-token generation, run twice from the same
seed, yields the same sequence. -/
theorem infer_deterministic_witness :
    InferRel (fun s => (s + 1, (1 : ℚ))) (fun _ _ _ => 0) (fun _ => []) 0 7 [5] 1 [5, 0] ∧
    ([5, 0] : List Nat) = [5, 0] := by
  have h : InferRel (fun s => (s + 1, (1 : ℚ))) (fun _ _ _ => 0) (fun _ => []) 0 7 [5] 1
      [5, 0] := by
    refine InferRel.step 7 [5] 0 8 1 [5, 0] rfl ?_
    exact InferRel.done 8 [5, 0]
  exact ⟨h, infer_deterministic _ _ _ _ _ _ _ _ _ h h⟩

end Femto
